import Mathlib

/-!
Verification of the mode-aware tick scheduler of `gui-metronome2/src/main.rs`
(the `metronome_thread` function and its associated state, command and event
types).  The Rust source is shallowly embedded below:

* `u32` fields are modelled as `Nat`; the two places where wrap-around is
  observable (`tick_count.fetch_add` and `subdivision_tick.wrapping_add`)
  take an explicit `% 2 ^ 32`.
* `Instant` timestamps are rational milliseconds; `f32` seconds arithmetic in
  Countdown/Ritardando mode is modelled over `ℚ`.  Wherever a theorem states
  a value produced by an `f32` computation, its quantifiers are confined to
  inputs on which every intermediate of that computation is exactly
  representable in `f32` — so the rational model is bit-faithful there (the
  argument is given at the definition concerned) — and concrete inputs of
  counterexamples and witnesses are chosen inside the same domain.
* `rand::thread_rng().gen_range(lo..=hi)` (a uniform draw from the inclusive
  range) is modelled by a seed argument mapped into the range by
  `lo + seed % (hi - lo + 1)`: every value of the range is representable and
  no value outside it is, which is exactly the contract of `gen_range`.
* a Rust `f32`-to-integer `as` cast saturates: negative values clamp to 0 and
  truncation towards zero equals `Int.floor` on the non-negative values that
  occur here, so it is modelled by `Int.toNat ∘ Int.floor`.
-/

/-- `enum MetronomeMode` (main.rs lines 21-30). -/
inductive MetronomeMode where
  | Standard
  | Random
  | Practice
  | Polyrhythm
  | Ritardando
  | Subdivision
  | Countdown
deriving DecidableEq, Repr

/-- `struct RandomState` (main.rs lines 105-109). -/
structure RandomState where
  count : Nat
  remaining_ticks : Nat
deriving DecidableEq, Repr

/-- `struct PracticeState` (main.rs lines 111-116); `sections` is a list of
(BPM, beats) pairs. -/
structure PracticeState where
  sections : List (Nat × Nat)
  current_section : Nat
  section_remaining : Nat
deriving DecidableEq, Repr

/-- `struct PolyrhythmState` (main.rs lines 118-124). -/
structure PolyrhythmState where
  primary : Nat
  secondary : Nat
  accent_primary : Bool
  accent_secondary : Bool
deriving DecidableEq, Repr

/-- `struct RitardandoState` (main.rs lines 126-132). -/
structure RitardandoState where
  start_bpm : Nat
  target_bpm : Nat
  duration : Nat
  remaining : Nat
deriving DecidableEq, Repr

/-- `struct SubdivisionState` (main.rs lines 134-138). -/
structure SubdivisionState where
  subdivisions : Nat
  accent_pattern : List Bool
deriving DecidableEq, Repr

/-- `struct CountdownState` (main.rs lines 140-147); the `f32` fields
`remaining_seconds` and `next_bpm_change` are modelled over `ℚ`. -/
structure CountdownState where
  duration_seconds : Nat
  remaining_seconds : ℚ
  enable_random_bpm : Bool
  original_bpm : Nat
  next_bpm_change : ℚ
deriving DecidableEq, Repr

/-- `enum MetronomeCommand` (main.rs lines 33-48). -/
inductive MetronomeCommand where
  | Start
  | Stop
  | ChangeBpm (bpm : Nat)
  | ChangeVolume (volume : Nat)
  | ChangeSoundType (sound_type : Nat)
  | ChangeMode (mode : MetronomeMode)
  | UpdateRandomSettings (count : Nat)
  | UpdatePracticeSettings (sections : List (Nat × Nat))
  | UpdatePolyrhythmSettings (primary secondary : Nat)
      (accent_primary accent_secondary : Bool)
  | UpdateRitardandoSettings (start_bpm target_bpm duration : Nat)
  | UpdateSubdivisionSettings (subdivisions : Nat) (pattern : List Bool)
  | UpdateCountdownSettings (duration_seconds : Nat) (enable_random_bpm : Bool)
  | Reset
deriving DecidableEq, Repr

/-- `enum MetronomeEvent` (main.rs lines 51-58).  The `Error` variant exists
in the source but is never constructed by `metronome_thread`. -/
inductive MetronomeEvent where
  | Beat (tick_count : Nat) (is_accent : Bool)
  | ModeChanged (mode : MetronomeMode)
  | BpmChanged (bpm : Nat)
  | CountdownFinished
  | Error (message : String)
deriving DecidableEq, Repr

/-- The scheduler-visible state: the fields of `SharedMetronomeState`
(main.rs lines 82-103) together with the thread-local variables of
`metronome_thread` (`last_tick`, `subdivision_tick`, `countdown_start_time`,
main.rs lines 345-347).  The thread keeps local copies of the mode records
and mirrors them into the shared `RwLock`s; since the thread is the only
writer the local copy and the mirror always agree, and they are represented
once here.  Timestamps are rational milliseconds. -/
structure SchedState where
  bpm : Nat
  is_running : Bool
  volume : Nat
  sound_type : Nat
  tick_count : Nat
  mode : MetronomeMode
  randomS : RandomState
  practiceS : PracticeState
  polyS : PolyrhythmState
  ritS : RitardandoState
  subS : SubdivisionState
  cdS : CountdownState
  last_beat : ℚ
  last_tick : ℚ
  subdivision_tick : Nat
  countdown_start : ℚ
deriving DecidableEq, Repr

/-- The random draws available to one scheduler iteration.  `randomBpmSeed`
feeds `gen_range(60..=200)` of Random mode, `countdownBpmSeed` feeds
`gen_range(80..=180)` of Countdown mode, and `nextChangeSeed` feeds
`gen_range(3.0..=8.0)`. -/
structure RngDraws where
  randomBpmSeed : Nat
  countdownBpmSeed : Nat
  nextChangeSeed : ℚ
deriving DecidableEq, Repr

/-- `rng.gen_range(60..=200)` (main.rs line 540). -/
def drawRandomBpm (seed : Nat) : Nat := 60 + seed % 141

/-- `rng.gen_range(80..=180)` (main.rs line 487). -/
def drawCountdownBpm (seed : Nat) : Nat := 80 + seed % 101

/-- `rng.gen_range(3.0..=8.0)` (main.rs line 489): an arbitrary value of the
inclusive interval, modelled by clamping the seed into `[3, 8]`. -/
def drawNextChange (seed : ℚ) : ℚ := max 3 (min 8 seed)

/-- The default shared state built in `MetronomeApp::default`
(main.rs lines 201-241). -/
def initState : SchedState where
  bpm := 120
  is_running := false
  volume := 80
  sound_type := 0
  tick_count := 0
  mode := MetronomeMode.Standard
  randomS := { count := 100, remaining_ticks := 100 }
  practiceS :=
    { sections := [(60, 32), (120, 32), (180, 32)]
      current_section := 0
      section_remaining := 0 }
  polyS :=
    { primary := 4, secondary := 3, accent_primary := true
      accent_secondary := true }
  ritS := { start_bpm := 120, target_bpm := 180, duration := 64, remaining := 0 }
  subS := { subdivisions := 1, accent_pattern := [true, false, false, false] }
  cdS :=
    { duration_seconds := 60, remaining_seconds := 60
      enable_random_bpm := false, original_bpm := 120, next_bpm_change := 5 }
  last_beat := 0
  last_tick := 0
  subdivision_tick := 0
  countdown_start := 0

/-- The subdivision multiplier match (main.rs lines 503-509):
1/2/3/4 for quarter/eighth/triplet/sixteenth, anything else 1. -/
def subdivMultiplier (subdivisions : Nat) : Nat :=
  if subdivisions = 1 then 1
  else if subdivisions = 2 then 2
  else if subdivisions = 3 then 3
  else if subdivisions = 4 then 4
  else 1

/-- `u64::MAX`, the value a non-finite `f32` saturates to under `as u64`. -/
def u64Max : Nat := 2 ^ 64 - 1

/-- The beat-interval computation (main.rs lines 500-513), in milliseconds.
The non-Subdivision arm is `60000 / effective_bpm.max(1)` in `u64` integer
arithmetic.  The Subdivision arm is
`(60000.0 / (effective_bpm as f32 * multiplier)) as u64` with no `max(1)`
guard: for `bpm * multiplier = 0` the `f32` quotient is `+inf`, which the
saturating cast turns into `u64::MAX`; for a positive denominator the
truncated `f32` quotient equals the rational floor (the quotient is at
least `1/60000` away from the next larger integer while the `f32`
half-ulp at this magnitude is below `60000 * 2 ^ (-23)`), so it is
modelled as natural division. -/
def beatInterval (mode : MetronomeMode) (bpm : Nat) (subdivisions : Nat) : Nat :=
  match mode with
  | MetronomeMode.Subdivision =>
    let m := subdivMultiplier subdivisions
    if bpm * m = 0 then u64Max else 60000 / (bpm * m)
  | _ => 60000 / max bpm 1

/-- Random-mode tick algorithm (main.rs lines 531-548).  Returns the updated
`RandomState`, the shared tempo after the tick, and the emitted events. -/
def randomTick (seed : Nat) (s : RandomState) (bpm : Nat) :
    RandomState × Nat × List MetronomeEvent :=
  let r0 := if s.remaining_ticks = 0 then s.count else s.remaining_ticks
  let r := r0 - 1
  if r = 0 then
    let new_bpm := drawRandomBpm seed
    ({ s with remaining_ticks := r }, new_bpm,
      [MetronomeEvent.BpmChanged new_bpm])
  else
    ({ s with remaining_ticks := r }, bpm, [])

/-- Practice-mode tick algorithm (main.rs lines 550-571).  Returns the
updated `PracticeState`, the shared tempo after the tick, and the emitted
events. -/
def practiceTick (s : PracticeState) (bpm : Nat) :
    PracticeState × Nat × List MetronomeEvent :=
  let step :=
    if s.section_remaining = 0 then
      if h : s.current_section < s.sections.length then
        let sec := s.sections.get ⟨s.current_section, h⟩
        ({ s with
            section_remaining := sec.2
            current_section := (s.current_section + 1) % s.sections.length },
          sec.1, [MetronomeEvent.BpmChanged sec.1])
      else (s, bpm, [])
    else (s, bpm, [])
  ({ step.1 with section_remaining := step.1.section_remaining - 1 },
    step.2.1, step.2.2)

/-- Polyrhythm-mode tick algorithm (main.rs lines 573-585).  Returns
`(is_accent, use_alternate_sound)` from the pre-increment tick counter. -/
def polyrhythmTick (s : PolyrhythmState) (tick_count : Nat) : Bool × Bool :=
  let primary_hit := decide (0 < s.primary) && decide (tick_count % s.primary = 0)
  let secondary_hit :=
    decide (0 < s.secondary) && decide (tick_count % s.secondary = 0)
  (primary_hit && s.accent_primary, secondary_hit && s.accent_secondary)

/-- Ritardando-mode tick algorithm (main.rs lines 587-610).  The `remaining`
counter update (lazy reset then `saturating_sub`, lines 588-590 and 605) is
pure `u32` arithmetic and is exact for all inputs.  The written tempo is
`(current_bpm as u32).max(1)` where `current_bpm` comes from the `f32`
pipeline of lines 592-599 (`u32`-to-`f32` casts of `start_bpm`,
`target_bpm`, `duration`, `remaining`, then subtract/divide for `progress`
and subtract/multiply/subtract for the interpolant); the cast is truncation
towards zero (saturating at 0 for negatives), i.e. `Int.toNat ∘ Int.floor`
on the non-negative values that occur.  Each `f32` operation is modelled as
exact rational arithmetic.  An IEEE-754 operation returns its exact result
whenever that result is representable (a value `m * 2 ^ e` with
`|m| ≤ 2 ^ 24`), so on the domain where the ritardando theorems below
quantify — `duration = 2 ^ j` a power of two with
`max start_bpm target_bpm * duration ≤ 2 ^ 24` and positive endpoints —
this model is bit-faithful to the program, operation by operation (writing
`k = duration - remaining`, `0 ≤ k < duration`):
the four casts are exact (all four integers are at most `2 ^ 24`);
`duration - remaining` is exact (the integer `k < 2 ^ 24`);
`progress = k / 2 ^ j` is exact (significand `k ≤ 2 ^ 24`);
`start_bpm - target_bpm` is exact (an integer of magnitude at most
`max ≤ 2 ^ 24`); the product is exact (its value is `N / 2 ^ j` with
`N = |start_bpm - target_bpm| * k < max * duration ≤ 2 ^ 24`); and the final
subtraction is exact (its value lies between `target_bpm` and `start_bpm`,
so scaled by `2 ^ j` it is an integer of magnitude at most
`max * duration ≤ 2 ^ 24`).  Outside this domain the `f32` program can
diverge from the rational model — e.g. with
`start_bpm = target_bpm = 2 ^ 24 + 3` both casts round to `2 ^ 24 + 4`
(ties to even) and the program writes `2 ^ 24 + 4` — so no theorem below
asserts anything about the pipeline's output beyond the domain. -/
def ritardandoTick (s : RitardandoState) (bpm : Nat) : RitardandoState × Nat :=
  let r := if s.remaining = 0 then s.duration else s.remaining
  let new_bpm :=
    if 0 < s.duration then
      let progress : ℚ := ((s.duration : ℚ) - (r : ℚ)) / (s.duration : ℚ)
      let current_bpm : ℚ :=
        (s.start_bpm : ℚ) - ((s.start_bpm : ℚ) - (s.target_bpm : ℚ)) * progress
      max (Int.toNat ⌊current_bpm⌋) 1
    else s.target_bpm
  ({ s with remaining := r - 1 }, new_bpm)

/-- Subdivision-mode tick algorithm (main.rs lines 612-619).  Returns the
accent flag and the updated (wrapping) `subdivision_tick` counter. -/
def subdivisionTick (s : SubdivisionState) (subdivision_tick : Nat) :
    Bool × Nat :=
  let accent :=
    if s.accent_pattern.length = 0 then false
    else s.accent_pattern.getD (subdivision_tick % s.accent_pattern.length) false
  (accent, (subdivision_tick + 1) % 2 ^ 32)

/-- Countdown-mode accent rule (main.rs lines 523-529):
accent when `seconds_elapsed % 10.0 < 0.5`; the `f32` remainder on
non-negative operands is `x - 10 * trunc (x / 10)`. -/
def countdownAccent (c : CountdownState) : Bool :=
  let seconds_elapsed : ℚ := (c.duration_seconds : ℚ) - c.remaining_seconds
  decide (seconds_elapsed - 10 * (⌊seconds_elapsed / 10⌋ : ℚ) < 1 / 2)

/-- Final playback gain of a fired tick (main.rs lines 635-646):
`volume = volume_percent / 100`; accented ticks play at
`(volume * 1.5).min(1.0)`, unaccented ticks at `volume` unclamped. -/
def finalGain (volume_percent : Nat) (is_accent : Bool) : ℚ :=
  let volume : ℚ := (volume_percent : ℚ) / 100
  if is_accent then min (volume * (3 / 2)) 1 else volume

/-- The UI-side accent-pattern resize (main.rs lines 1829-1836): when the
pattern length differs from the requested subdivision count, `Vec::resize`
truncates or extends with `false`, then index 0 is forced `true` when the
count is positive. -/
def resizePattern (pattern : List Bool) (subdivisions : Nat) : List Bool :=
  if pattern.length ≠ subdivisions then
    let p := pattern.take subdivisions ++
      List.replicate (subdivisions - pattern.length) false
    if 0 < subdivisions then p.set 0 true else p
  else pattern

/-- One command of the drain loop (main.rs lines 359-445).  `now` is the
current instant (`Instant::now()` inside the `Start` handler).  Returns the
updated state and the emitted events. -/
def applyCommand (now : ℚ) (s : SchedState) (cmd : MetronomeCommand) :
    SchedState × List MetronomeEvent :=
  match cmd with
  | MetronomeCommand.Start =>
    let s1 : SchedState :=
      { s with
          is_running := true
          tick_count := 0
          last_tick := now
          countdown_start := now
          subdivision_tick := 0 }
    let s2 : SchedState :=
      match s1.mode with
      | MetronomeMode.Random =>
        { s1 with
            randomS := { s1.randomS with remaining_ticks := s1.randomS.count } }
      | MetronomeMode.Practice =>
        { s1 with
            practiceS :=
              { s1.practiceS with current_section := 0, section_remaining := 0 } }
      | MetronomeMode.Ritardando =>
        { s1 with
            ritS := { s1.ritS with remaining := s1.ritS.duration }
            bpm := s1.ritS.start_bpm }
      | MetronomeMode.Countdown =>
        { s1 with
            cdS :=
              { s1.cdS with
                  remaining_seconds := (s1.cdS.duration_seconds : ℚ)
                  original_bpm := s1.bpm
                  next_bpm_change := 5 } }
      | _ => s1
    (s2, [])
  | MetronomeCommand.Stop => ({ s with is_running := false }, [])
  | MetronomeCommand.ChangeBpm b => ({ s with bpm := b }, [])
  | MetronomeCommand.ChangeVolume v => ({ s with volume := v }, [])
  | MetronomeCommand.ChangeSoundType t => ({ s with sound_type := t }, [])
  | MetronomeCommand.ChangeMode m =>
    ({ s with mode := m }, [MetronomeEvent.ModeChanged m])
  | MetronomeCommand.UpdateRandomSettings count =>
    ({ s with randomS := { count := count, remaining_ticks := count } }, [])
  | MetronomeCommand.UpdatePracticeSettings sections =>
    ({ s with practiceS := { s.practiceS with sections := sections } }, [])
  | MetronomeCommand.UpdatePolyrhythmSettings p q ap aq =>
    ({ s with
        polyS :=
          { primary := p, secondary := q, accent_primary := ap,
            accent_secondary := aq } }, [])
  | MetronomeCommand.UpdateRitardandoSettings sb tb dur =>
    ({ s with
        ritS :=
          { s.ritS with
              start_bpm := sb
              target_bpm := tb
              duration := max dur 1 } }, [])
  | MetronomeCommand.UpdateSubdivisionSettings n pat =>
    ({ s with subS := { subdivisions := n, accent_pattern := pat } }, [])
  | MetronomeCommand.UpdateCountdownSettings d e =>
    ({ s with
        cdS := { s.cdS with duration_seconds := d, enable_random_bpm := e } }, [])
  | MetronomeCommand.Reset => ({ s with tick_count := 0, subdivision_tick := 0 }, [])

/-- The full command drain (`while let Ok(command) = try_recv()`),
applied left to right. -/
def applyCommands (now : ℚ) (s : SchedState) :
    List MetronomeCommand → SchedState × List MetronomeEvent
  | [] => (s, [])
  | c :: rest =>
    let p := applyCommand now s c
    let q := applyCommands now p.1 rest
    (q.1, p.2 ++ q.2)

/-- Countdown timing block of a running iteration (main.rs lines 454-498):
recompute `remaining_seconds` from wall-clock time; on expiry stop the
session, queue the celebration sound (cache id 8) at `volume * 1.5` and emit
`CountdownFinished` (the `Bool` result `true` models the `continue`);
otherwise optionally run the random-BPM block.  Sounds are `(id, gain)`
pairs. -/
def countdownPhase (now : ℚ) (rng : RngDraws) (s : SchedState) :
    SchedState × List MetronomeEvent × List (Nat × ℚ) × Bool :=
  if s.mode = MetronomeMode.Countdown then
    let elapsed : ℚ := (now - s.countdown_start) / 1000
    let remaining : ℚ := max ((s.cdS.duration_seconds : ℚ) - elapsed) 0
    let s1 : SchedState := { s with cdS := { s.cdS with remaining_seconds := remaining } }
    if remaining ≤ 0 then
      ({ s1 with is_running := false },
        [MetronomeEvent.CountdownFinished],
        [(8, ((s1.volume : ℚ) / 100) * (3 / 2))], true)
    else if s1.cdS.enable_random_bpm then
      let nbc : ℚ := s1.cdS.next_bpm_change -
        (elapsed - ((s1.cdS.duration_seconds : ℚ) - s1.cdS.remaining_seconds))
      let s2 : SchedState := { s1 with cdS := { s1.cdS with next_bpm_change := nbc } }
      if nbc ≤ 0 then
        let new_bpm := drawCountdownBpm rng.countdownBpmSeed
        ({ s2 with
            bpm := new_bpm
            cdS := { s2.cdS with
                next_bpm_change := drawNextChange rng.nextChangeSeed } },
          [MetronomeEvent.BpmChanged new_bpm], [], false)
      else (s2, [], [], false)
    else (s1, [], [], false)
  else (s, [], [], false)

/-- The mode dispatch inside a fired tick (`match current_mode`,
main.rs lines 518-620).  Returns the updated state, the accent flag, the
alternate-sound flag and the events emitted by the mode arm. -/
def modeTick (rng : RngDraws) (s : SchedState) :
    SchedState × Bool × Bool × List MetronomeEvent :=
  match s.mode with
  | MetronomeMode.Standard => (s, false, false, [])
  | MetronomeMode.Countdown => (s, countdownAccent s.cdS, false, [])
  | MetronomeMode.Random =>
    let t := randomTick rng.randomBpmSeed s.randomS s.bpm
    ({ s with randomS := t.1, bpm := t.2.1 }, false, false, t.2.2)
  | MetronomeMode.Practice =>
    let t := practiceTick s.practiceS s.bpm
    ({ s with practiceS := t.1, bpm := t.2.1 }, false, false, t.2.2)
  | MetronomeMode.Polyrhythm =>
    let t := polyrhythmTick s.polyS s.tick_count
    (s, t.1, t.2, [])
  | MetronomeMode.Ritardando =>
    let t := ritardandoTick s.ritS s.bpm
    ({ s with ritS := t.1, bpm := t.2 }, false, false, [])
  | MetronomeMode.Subdivision =>
    let t := subdivisionTick s.subS s.subdivision_tick
    ({ s with subdivision_tick := t.2 }, t.1, false, [])

/-- The fire block of a tick (main.rs lines 622-658): wrapping-increment the
tick counter, record `last_beat`, emit `Beat`, and queue the sound at
`finalGain` (with the alternate sound id `(sound_type + 1) % 8` when
requested). -/
def fireTick (now : ℚ) (s : SchedState) (is_accent use_alternate_sound : Bool) :
    SchedState × List MetronomeEvent × List (Nat × ℚ) :=
  let new_tick_count := (s.tick_count + 1) % 2 ^ 32
  let s1 := { s with tick_count := new_tick_count, last_beat := now }
  let sound_type :=
    if use_alternate_sound then (s1.sound_type + 1) % 8 else s1.sound_type
  (s1, [MetronomeEvent.Beat new_tick_count is_accent],
    [(sound_type, finalGain s1.volume is_accent)])

/-- The running/stopped body of one loop iteration (main.rs lines 447-665).
The beat interval is computed from the `effective_bpm` local read at line
449, i.e. from the tempo *before* any countdown random-BPM store.  When not
running, the iteration refreshes `last_tick` and zeroes `subdivision_tick`
(lines 662-665). -/
def runBody (now : ℚ) (rng : RngDraws) (s : SchedState) :
    SchedState × List MetronomeEvent × List (Nat × ℚ) :=
  if s.is_running then
    let cd := countdownPhase now rng s
    if cd.2.2.2 then (cd.1, cd.2.1, cd.2.2.1)
    else
      let s1 := cd.1
      let interval := beatInterval s.mode s.bpm s.subS.subdivisions
      if (interval : ℚ) ≤ now - s1.last_tick then
        let mt := modeTick rng s1
        let ft := fireTick now mt.1 mt.2.1 mt.2.2.1
        ({ ft.1 with last_tick := now },
          cd.2.1 ++ mt.2.2.2 ++ ft.2.1,
          cd.2.2.1 ++ ft.2.2)
      else (s1, cd.2.1, cd.2.2.1)
  else
    ({ s with last_tick := now, subdivision_tick := 0 }, [], [])

/-- One full iteration of the `loop` in `metronome_thread`
(main.rs lines 357-668): drain the pending commands, then run the body. -/
def schedStep (now : ℚ) (rng : RngDraws) (cmds : List MetronomeCommand)
    (s : SchedState) : SchedState × List MetronomeEvent × List (Nat × ℚ) :=
  let p := applyCommands now s cmds
  let q := runBody now rng p.1
  (q.1, p.2 ++ q.2.1, q.2.2)

/-- Input to one scheduler iteration: the instant at which it runs, the
random draws it may consume, and the commands pending in the channel. -/
structure SchedIter where
  now : ℚ
  rng : RngDraws
  cmds : List MetronomeCommand
deriving Repr

/-- A run of successive scheduler iterations, collecting the emitted
events. -/
def runSched : List SchedIter → SchedState → SchedState × List MetronomeEvent
  | [], s => (s, [])
  | it :: rest, s =>
    let p := schedStep it.now it.rng it.cmds s
    let q := runSched rest p.1
    (q.1, p.2.1 ++ q.2)

/-- Iterated Random-mode ticks: the state and shared tempo after `n` fired
ticks, the `k`-th tick consuming `seeds k`. -/
def randomIter (seeds : Nat → Nat) (s : RandomState) (bpm : Nat) :
    Nat → RandomState × Nat
  | 0 => (s, bpm)
  | n + 1 =>
    let prev := randomIter seeds s bpm n
    let t := randomTick (seeds n) prev.1 prev.2
    (t.1, t.2.1)

/-- Iterated Ritardando-mode ticks: the state and shared tempo after `n`
fired ticks. -/
def ritIter (s : RitardandoState) (bpm : Nat) : Nat → RitardandoState × Nat
  | 0 => (s, bpm)
  | n + 1 =>
    let prev := ritIter s bpm n
    ritardandoTick prev.1 prev.2

/-- Iterated Practice-mode ticks: the state and shared tempo after `n` fired
ticks. -/
def practiceIter (s : PracticeState) (bpm : Nat) : Nat → PracticeState × Nat
  | 0 => (s, bpm)
  | n + 1 =>
    let prev := practiceIter s bpm n
    let t := practiceTick prev.1 prev.2
    (t.1, t.2.1)

/-- The `f32` linear interpolant of Ritardando mode at ramp position `k`
(entered with `remaining = duration - k`), over `ℚ`. -/
def tempoQ (start_bpm target_bpm duration k : Nat) : ℚ :=
  (start_bpm : ℚ) -
    ((start_bpm : ℚ) - (target_bpm : ℚ)) * ((k : ℚ) / (duration : ℚ))

/-- The tempo Ritardando mode writes on the tick entered with
`remaining = duration - k`: the truncated interpolant, floored to 1. -/
def ritTempo (start_bpm target_bpm duration k : Nat) : Nat :=
  max (Int.toNat ⌊tempoQ start_bpm target_bpm duration k⌋) 1

/-- A running state with a non-zero subdivision position, used to exhibit
what one scheduler iteration containing a `Stop` command does to it. -/
def c9State : SchedState :=
  { initState with is_running := true, subdivision_tick := 5 }

/-- A concrete one-second Countdown session, running, started at instant
0. -/
def c4State : SchedState :=
  { initState with
      mode := MetronomeMode.Countdown
      is_running := true
      cdS := { initState.cdS with duration_seconds := 1, remaining_seconds := 1 } }

/-! ## Helper lemmas -/

theorem one_le_subdivMultiplier (n : Nat) : 1 ≤ subdivMultiplier n := by
  unfold subdivMultiplier
  split_ifs <;> omega

theorem succ_mod_eq (I n : Nat) (hI : 0 < I) :
    (n + 1) % I = if n % I + 1 = I then 0 else n % I + 1 := by
  have h1 : (n + 1) % I = (n % I + 1) % I := by
    have hd : n % I + I * (n / I) = n := Nat.mod_add_div n I
    have : n + 1 = n % I + 1 + I * (n / I) := by omega
    rw [this, Nat.add_mul_mod_self_left]
  rw [h1]
  have hlt : n % I < I := Nat.mod_lt _ hI
  by_cases h : n % I + 1 = I
  · rw [if_pos h, h, Nat.mod_self]
  · rw [if_neg h, Nat.mod_eq_of_lt (by omega)]

/-! ## C6: final playback gain -/

/-- C6: for every fired tick with the documented volume range
`volume_percent ∈ [0, 100]`, the final playback gain equals
`min 1 (volume * 1.5)` on accented ticks and `volume` (= `min 1 (volume * 1)`,
as the unclamped value already is at most 1) otherwise, where
`volume = volume_percent / 100`; in both cases the gain is at most 1. -/
theorem C6_gain (volume_percent : Nat) (hv : volume_percent ≤ 100)
    (is_accent : Bool) :
    finalGain volume_percent is_accent =
      min 1 ((volume_percent : ℚ) / 100 * (if is_accent then 3 / 2 else 1)) ∧
    finalGain volume_percent is_accent ≤ 1 := by
  have hq : (volume_percent : ℚ) / 100 ≤ 1 := by
    rw [div_le_one (by norm_num)]
    exact_mod_cast hv
  cases is_accent with
  | false =>
    constructor
    · simp only [finalGain, Bool.false_eq_true, if_false, mul_one]
      rw [min_eq_right hq]
    · simpa [finalGain] using hq
  | true =>
    constructor
    · simp only [finalGain, if_true]
      rw [min_comm]
    · simp only [finalGain, if_true]
      exact min_le_right _ _

/-- C6 witness: the gain computation at the default volume 80, accented. -/
theorem C6_witness :
    finalGain 80 true = min 1 ((80 : ℚ) / 100 * (3 / 2)) ∧
    finalGain 80 true ≤ 1 :=
  C6_gain 80 (by norm_num) true

/-! ## C7: beat interval -/

/-- C7 counterexample: in Subdivision mode with `tempo_bpm = 0` (quarter-note
multiplier 1) the interval is the saturated `u64::MAX` milliseconds, not the
`60000 / 1 = 60000` the claim's floor-to-1 guard would give: the `.max(1)`
guard exists only in the non-Subdivision arm. -/
theorem C7_counterexample :
    beatInterval MetronomeMode.Subdivision 0 1 = 2 ^ 64 - 1 ∧
    beatInterval MetronomeMode.Subdivision 0 1 ≠ 60000 := by
  constructor <;> decide

/-- C7 (amended): in every non-Subdivision mode the beat interval is
`60000 / max tempo_bpm 1` milliseconds (integer division, with the
floor-to-1 guard); in Subdivision mode it is
`60000 / (tempo_bpm * multiplier)` for positive tempo, with multiplier
1/2/3/4 for subdivision settings 1/2/3/4 (and 1 otherwise), but there is no
floor-to-1 guard: `tempo_bpm = 0` yields the `f32` infinity saturated to
`u64::MAX` rather than a division by a floored tempo. -/
theorem C7_amended :
    (∀ (mode : MetronomeMode) (bpm subdivisions : Nat),
        mode ≠ MetronomeMode.Subdivision →
        beatInterval mode bpm subdivisions = 60000 / max bpm 1) ∧
    (∀ bpm subdivisions : Nat, 0 < bpm →
        beatInterval MetronomeMode.Subdivision bpm subdivisions =
          60000 / (bpm * subdivMultiplier subdivisions)) ∧
    (∀ subdivisions : Nat,
        beatInterval MetronomeMode.Subdivision 0 subdivisions = u64Max) ∧
    (subdivMultiplier 1 = 1 ∧ subdivMultiplier 2 = 2 ∧
      subdivMultiplier 3 = 3 ∧ subdivMultiplier 4 = 4) := by
  refine ⟨?_, ?_, ?_, by decide⟩
  · intro mode bpm subdivisions h
    cases mode <;> first
      | rfl
      | exact absurd rfl h
  · intro bpm subdivisions hbpm
    have hm : bpm * subdivMultiplier subdivisions ≠ 0 :=
      Nat.mul_ne_zero (by omega)
        (by have := one_le_subdivMultiplier subdivisions; omega)
    simp [beatInterval, hm]
  · intro subdivisions
    simp [beatInterval]

/-- C7 witness: the amended interval law evaluated at Standard mode with
`tempo_bpm = 0` and at Subdivision mode with tempo 120 and eighth notes. -/
theorem C7_witness :
    beatInterval MetronomeMode.Standard 0 7 = 60000 / max 0 1 ∧
    beatInterval MetronomeMode.Subdivision 120 2 =
      60000 / (120 * subdivMultiplier 2) :=
  ⟨C7_amended.1 MetronomeMode.Standard 0 7 (by decide),
    C7_amended.2.1 120 2 (by decide)⟩

/-! ## C8: subdivision pattern invariant -/

theorem getD_set_zero_true (l : List Bool) (hl : l ≠ []) :
    (l.set 0 true).getD 0 false = true := by
  cases l with
  | nil => exact absurd rfl hl
  | cons a t => rfl

theorem getD_set_zero_pos (l : List Bool) (i : Nat) (hi : 0 < i) :
    (l.set 0 true).getD i false = l.getD i false := by
  cases l with
  | nil => rfl
  | cons a t =>
    cases i with
    | zero => omega
    | succ j => rfl

theorem getD_replicate_false (m j : Nat) :
    (List.replicate m false).getD j false = false := by
  induction m generalizing j with
  | zero => rfl
  | succ m ih =>
    cases j with
    | zero => rfl
    | succ j => simp [List.replicate, ih j]

/-- C8 counterexample: the invariant `accent_pattern.length = subdivisions`
already fails in the initial state of the program: the default
`SubdivisionState` has `subdivisions = 1` but the four-element pattern
`[true, false, false, false]`. -/
theorem C8_counterexample :
    initState.subS.subdivisions = 1 ∧
    initState.subS.accent_pattern.length = 4 ∧
    initState.subS.accent_pattern.length ≠ initState.subS.subdivisions := by
  refine ⟨rfl, rfl, by decide⟩

/-- C8 (amended): the initial state violates the length invariant
(`subdivisions = 1` with a length-4 pattern).  The resize discipline lives in
the UI control, not in the scheduler: whenever the pattern length differs
from a positive subdivision factor, `resizePattern` returns a pattern of
exactly that length whose element 0 is forced accented and whose newly added
elements (indices past the old length, other than the forced index 0)
default to unaccented; the scheduler's `UpdateSubdivisionSettings` handler
stores whatever factor/pattern pair it is sent, without revalidation. -/
theorem C8_amended :
    (∀ (pattern : List Bool) (n : Nat), pattern.length ≠ n → 0 < n →
        (resizePattern pattern n).length = n ∧
        (resizePattern pattern n).getD 0 false = true ∧
        (∀ i : Nat, pattern.length ≤ i → 0 < i → i < n →
          (resizePattern pattern n).getD i false = false)) ∧
    (∀ (s : SchedState) (now : ℚ) (n : Nat) (pat : List Bool),
        (applyCommand now s
            (MetronomeCommand.UpdateSubdivisionSettings n pat)).1.subS =
          { subdivisions := n, accent_pattern := pat }) := by
  constructor
  · intro pattern n hne hn
    have hres : resizePattern pattern n =
        (pattern.take n ++
          List.replicate (n - pattern.length) false).set 0 true := by
      rw [resizePattern, if_pos hne, if_pos hn]
    have hlen : (pattern.take n ++
        List.replicate (n - pattern.length) false).length = n := by
      simp only [List.length_append, List.length_take, List.length_replicate]
      omega
    have hnil : pattern.take n ++
        List.replicate (n - pattern.length) false ≠ [] := by
      intro h
      rw [h] at hlen
      simp at hlen
      omega
    refine ⟨?_, ?_, ?_⟩
    · rw [hres, List.length_set, hlen]
    · rw [hres]
      exact getD_set_zero_true _ hnil
    · intro i hlow hpos hhigh
      rw [hres, getD_set_zero_pos _ _ hpos]
      have htake : (pattern.take n).length = pattern.length := by
        simp only [List.length_take]
        omega
      rw [List.getD_append_right]
      · rw [htake]
        exact getD_replicate_false _ _
      · omega
  · intro s now n pat
    rfl

/-- C8 witness: resizing the default length-1-worth pattern `[true]` to four
subdivisions gives a length-4 pattern, accented at index 0 and unaccented at
the new index 2; the scheduler stores the sent pair unchanged. -/
theorem C8_witness :
    (resizePattern [true] 4).length = 4 ∧
    (resizePattern [true] 4).getD 0 false = true ∧
    (resizePattern [true] 4).getD 2 false = false ∧
    (applyCommand 0 initState
        (MetronomeCommand.UpdateSubdivisionSettings 4
          [true, false, false, false])).1.subS =
      { subdivisions := 4, accent_pattern := [true, false, false, false] } := by
  have h := C8_amended.1 [true] 4 (by decide) (by decide)
  exact ⟨h.1, h.2.1, h.2.2 2 (by decide) (by decide) (by decide),
    C8_amended.2 initState 0 4 [true, false, false, false]⟩

/-! ## C1: Random mode -/

theorem randomTick_remaining (seed : Nat) (s : RandomState) (b : Nat) :
    (randomTick seed s b).1.remaining_ticks =
      (if s.remaining_ticks = 0 then s.count else s.remaining_ticks) - 1 := by
  simp only [randomTick]
  split <;> split <;> rfl

theorem randomTick_count (seed : Nat) (s : RandomState) (b : Nat) :
    (randomTick seed s b).1.count = s.count := by
  simp only [randomTick]
  split <;> split <;> rfl

theorem randomTick_events (seed : Nat) (s : RandomState) (b : Nat) :
    (randomTick seed s b).2.2 = [] ∨
    (randomTick seed s b).2.2 =
      [MetronomeEvent.BpmChanged (drawRandomBpm seed)] := by
  simp only [randomTick]
  split <;> split <;> first
    | exact Or.inl rfl
    | exact Or.inr rfl

theorem randomIter_zero (seeds : Nat → Nat) (s : RandomState) (b : Nat) :
    randomIter seeds s b 0 = (s, b) := rfl

theorem randomIter_succ (seeds : Nat → Nat) (s : RandomState) (b n : Nat) :
    randomIter seeds s b (n + 1) =
      ((randomTick (seeds n) (randomIter seeds s b n).1
          (randomIter seeds s b n).2).1,
        (randomTick (seeds n) (randomIter seeds s b n).1
          (randomIter seeds s b n).2).2.1) := rfl

theorem randomIter_count (seeds : Nat → Nat) (s : RandomState) (b : Nat) :
    ∀ n, (randomIter seeds s b n).1.count = s.count := by
  intro n
  induction n with
  | zero => rfl
  | succ n ih =>
    rw [randomIter_succ, randomTick_count]
    exact ih

theorem randomIter_remaining_aux (seeds : Nat → Nat) (b I : Nat) (hI : 0 < I) :
    ∀ n, (randomIter seeds ⟨I, I⟩ b (n + 1)).1.remaining_ticks =
      I - 1 - n % I := by
  intro n
  induction n with
  | zero =>
    rw [randomIter_succ, randomTick_remaining, randomIter_zero]
    simp [ite_self]
  | succ n ih =>
    have hcount : (randomIter seeds ⟨I, I⟩ b (n + 1)).1.count = I :=
      randomIter_count seeds ⟨I, I⟩ b (n + 1)
    have hlt : n % I < I := Nat.mod_lt _ hI
    rw [randomIter_succ seeds ⟨I, I⟩ b (n + 1), randomTick_remaining, ih, hcount]
    rw [succ_mod_eq I n hI]
    by_cases h : n % I + 1 = I
    · have h2 : I - 1 - n % I = 0 := by omega
      rw [if_pos h2, if_pos h]
      omega
    · have h2 : ¬(I - 1 - n % I = 0) := by omega
      rw [if_neg h2, if_neg h]
      omega

/-- C1 counterexample: with `interval_beats = 2` and two fired ticks from a
fresh `Start` (so `N mod I = 0`), `remaining_ticks` is 0, not the `I = 2`
the claim asserts: the counter is only reset back to `interval_beats` lazily
at the start of the *next* fired tick. -/
theorem C1_counterexample :
    (randomIter (fun _ => 0) ⟨2, 2⟩ 120 2).1.remaining_ticks = 0 ∧
    (randomIter (fun _ => 0) ⟨2, 2⟩ 120 2).1.remaining_ticks ≠ 2 := by
  constructor <;> decide

/-- C1 (amended): every tempo drawn in Random mode lies in `[60, 200]`
inclusive (every event the tick emits is a `BpmChanged` with such a tempo),
and after `N ≥ 1` fired ticks from a fresh `Start` with
`interval_beats = I ≥ 1` the counter satisfies
`remaining_ticks = I - (N mod I)` when `N mod I ≠ 0` and `remaining_ticks =
0` when `N mod I = 0` (the reset to `I` happens at the start of the next
fired tick, not on the drawing tick itself). -/
theorem C1_amended :
    (∀ (seeds : Nat → Nat) (b I N : Nat), 0 < I → 1 ≤ N →
        (randomIter seeds ⟨I, I⟩ b N).1.remaining_ticks =
          if N % I = 0 then 0 else I - N % I) ∧
    (∀ (seed : Nat) (s : RandomState) (b : Nat)
        (ev : MetronomeEvent), ev ∈ (randomTick seed s b).2.2 →
        ∃ nb, ev = MetronomeEvent.BpmChanged nb ∧ 60 ≤ nb ∧ nb ≤ 200) := by
  constructor
  · intro seeds b I N hI hN
    obtain ⟨M, rfl⟩ : ∃ M, N = M + 1 := ⟨N - 1, by omega⟩
    rw [randomIter_remaining_aux seeds b I hI M, succ_mod_eq I M hI]
    have hlt : M % I < I := Nat.mod_lt _ hI
    by_cases h : M % I + 1 = I
    · rw [if_pos h]
      simp only [reduceIte]
      omega
    · rw [if_neg h]
      have h2 : ¬(M % I + 1 = 0) := by omega
      rw [if_neg h2]
      omega
  · intro seed s b ev hev
    rcases randomTick_events seed s b with h | h <;> rw [h] at hev
    · simp at hev
    · simp only [List.mem_singleton] at hev
      refine ⟨drawRandomBpm seed, hev, ?_, ?_⟩ <;>
        · unfold drawRandomBpm
          have : seed % 141 < 141 := Nat.mod_lt _ (by omega)
          omega

/-- C1 witness: the amended counter law at `I = 3` after `N = 4` fired
ticks. -/
theorem C1_witness :
    (randomIter (fun _ => 7) ⟨3, 3⟩ 120 4).1.remaining_ticks =
      if 4 % 3 = 0 then 0 else 3 - 4 % 3 :=
  C1_amended.1 (fun _ => 7) 120 3 4 (by decide) (by decide)

/-! ## C5: Practice mode -/

/-- C5 counterexample: on the very first rollover tick from a fresh `Start`
with sections `[(60,4),(120,4)]`, the post-tick `section_remaining` is 3,
not the section's beat count 4 that the claim states: the rollover sets the
counter to the beat count and the same tick then applies the unconditional
decrement. -/
theorem C5_counterexample :
    (practiceTick ⟨[(60, 4), (120, 4)], 0, 0⟩ 120).1.section_remaining = 3 ∧
    (practiceTick ⟨[(60, 4), (120, 4)], 0, 0⟩ 120).1.section_remaining ≠ 4 := by
  constructor <;> decide

/-- C5 (amended): with sections `[(60,4),(120,4)]`, after 8 fired ticks from
a fresh `Start` the section index has wrapped back to 0 and the tempo writes
were 60 (tick 1) and 120 (tick 5), with 60 written again on tick 9 — the
tempo cycles 60, 120, 60.  In general, a tick entered with
`section_remaining = 0` and a valid index applies the section's tempo, sets
`section_remaining` to the section's beat count and then decrements it along
with every tick (post-tick value: beat count − 1, so a section lasts exactly
its beat count of ticks), and advances the index modulo the number of
sections; when the section list is empty the tick changes no tempo, emits
nothing and only saturating-decrements `section_remaining`, hence it is a
strict no-op in the fresh-`Start` state where that counter is 0. -/
theorem C5_amended :
    ((practiceIter ⟨[(60, 4), (120, 4)], 0, 0⟩ 120 8).1.current_section = 0 ∧
      (practiceIter ⟨[(60, 4), (120, 4)], 0, 0⟩ 120 4).2 = 60 ∧
      (practiceIter ⟨[(60, 4), (120, 4)], 0, 0⟩ 120 8).2 = 120 ∧
      (practiceIter ⟨[(60, 4), (120, 4)], 0, 0⟩ 120 9).2 = 60) ∧
    (∀ (s : PracticeState) (b : Nat) (h0 : s.section_remaining = 0)
        (h : s.current_section < s.sections.length),
        practiceTick s b =
          ({ s with
              section_remaining :=
                (s.sections.get ⟨s.current_section, h⟩).2 - 1
              current_section :=
                (s.current_section + 1) % s.sections.length },
            (s.sections.get ⟨s.current_section, h⟩).1,
            [MetronomeEvent.BpmChanged
              (s.sections.get ⟨s.current_section, h⟩).1])) ∧
    (∀ (s : PracticeState) (b : Nat), s.sections = [] →
        practiceTick s b =
          ({ s with section_remaining := s.section_remaining - 1 }, b, [])) ∧
    (∀ (s : PracticeState) (b : Nat), s.sections = [] →
        s.section_remaining = 0 →
        (practiceTick s b).1 = s ∧ (practiceTick s b).2.1 = b ∧
        (practiceTick s b).2.2 = []) := by
  refine ⟨by constructor <;> [decide; constructor <;> [decide; constructor <;> decide]],
    ?_, ?_, ?_⟩
  · intro s b h0 h
    simp only [practiceTick, h0, dif_pos h, eq_self_iff_true, if_true]
  · intro s b hsec
    have h : ¬(s.current_section < s.sections.length) := by
      rw [hsec]
      simp
    simp only [practiceTick, dif_neg h, ite_self]
  · intro s b hsec h0
    cases s with
    | mk sections cs rem =>
      simp only at h0 hsec
      subst h0
      subst hsec
      simp [practiceTick]

/-! ## C2: Ritardando mode -/

theorem ritIter_zero (s : RitardandoState) (b : Nat) : ritIter s b 0 = (s, b) := rfl

theorem ritIter_succ (s : RitardandoState) (b n : Nat) :
    ritIter s b (n + 1) =
      ritardandoTick (ritIter s b n).1 (ritIter s b n).2 := rfl

theorem ritardandoTick_state (s : RitardandoState) (b : Nat) :
    (ritardandoTick s b).1 =
      { s with
          remaining :=
            (if s.remaining = 0 then s.duration else s.remaining) - 1 } := by
  simp only [ritardandoTick]

theorem ritIter_state (st tg d b : Nat) :
    ∀ k, k ≤ d →
      (ritIter ⟨st, tg, d, d⟩ b k).1 = ⟨st, tg, d, d - k⟩ := by
  intro k
  induction k with
  | zero => intro _; rfl
  | succ k ih =>
    intro hk
    have hk1 : k ≤ d := by omega
    rw [ritIter_succ, ritardandoTick_state, ih hk1]
    have hne : ¬(d - k = 0) := by omega
    simp only [if_neg hne]
    congr 1

theorem ritIter_write (st tg d b k : Nat) (hk : k < d) :
    (ritIter ⟨st, tg, d, d⟩ b (k + 1)).2 = ritTempo st tg d k := by
  rw [ritIter_succ, ritIter_state st tg d b k (by omega)]
  have hne : ¬(d - k = 0) := by omega
  have hd : 0 < d := by omega
  have hcast : ((d - k : Nat) : ℚ) = (d : ℚ) - (k : ℚ) :=
    Nat.cast_sub (by omega : k ≤ d)
  simp only [ritardandoTick, if_neg hne, if_pos hd]
  unfold ritTempo tempoQ
  rw [hcast, sub_sub_cancel]

theorem tempoQ_mono_of_le (st tg d k1 k2 : Nat) (hd : 0 < d) (hk : k1 ≤ k2)
    (h : (st : ℚ) ≤ (tg : ℚ)) :
    tempoQ st tg d k1 ≤ tempoQ st tg d k2 := by
  have hdQ : (0 : ℚ) < (d : ℚ) := by exact_mod_cast hd
  have hq : (k1 : ℚ) / (d : ℚ) ≤ (k2 : ℚ) / (d : ℚ) := by
    gcongr
  unfold tempoQ
  nlinarith [mul_nonneg (sub_nonneg.mpr h) (sub_nonneg.mpr hq)]

theorem tempoQ_anti_of_le (st tg d k1 k2 : Nat) (hd : 0 < d) (hk : k1 ≤ k2)
    (h : (tg : ℚ) ≤ (st : ℚ)) :
    tempoQ st tg d k2 ≤ tempoQ st tg d k1 := by
  have hdQ : (0 : ℚ) < (d : ℚ) := by exact_mod_cast hd
  have hq : (k1 : ℚ) / (d : ℚ) ≤ (k2 : ℚ) / (d : ℚ) := by
    gcongr
  unfold tempoQ
  nlinarith [mul_nonneg (sub_nonneg.mpr h) (sub_nonneg.mpr hq)]

theorem ritTempo_of_tempoQ_le (st tg d k1 k2 : Nat)
    (h : tempoQ st tg d k1 ≤ tempoQ st tg d k2) :
    ritTempo st tg d k1 ≤ ritTempo st tg d k2 := by
  unfold ritTempo
  exact max_le_max (Int.toNat_le_toNat (Int.floor_le_floor h)) (le_refl 1)

/-- C2 counterexample: with `start_bpm = 120`, `target_bpm = 180` and
`ramp_length_beats = 4`, the 4th tick from a fresh `Start` is the one on
which `remaining_beats` reaches 0, and it writes tempo 165 — the truncated
interpolant at progress 3/4 — not 180: the claim's "equals exactly
`target_bpm`" fails.  Also `start_bpm = 120`, `target_bpm = 61`,
`ramp_length_beats = 2`: the 2nd tick computes the interpolant 90.5 and
writes 90 (`as u32` truncation towards zero), not the 91 the claim's
`round` would give.  Both inputs lie inside the domain on which the
rational model is bit-faithful to the `f32` program (`d = 2 ^ 2` with
`180 * 4 ≤ 2 ^ 24`, and `d = 2 ^ 1` with `120 * 2 ≤ 2 ^ 24`; see
`ritardandoTick`), so these are the program's own outputs. -/
theorem C2_counterexample :
    (ritIter ⟨120, 180, 4, 4⟩ 120 4).2 = 165 ∧
    (ritIter ⟨120, 180, 4, 4⟩ 120 4).1.remaining = 0 ∧
    (ritIter ⟨120, 180, 4, 4⟩ 120 4).2 ≠ 180 ∧
    (ritIter ⟨120, 61, 2, 2⟩ 120 2).2 = 90 ∧
    (ritIter ⟨120, 61, 2, 2⟩ 120 2).2 ≠ 91 := by
  have h1 : (ritIter ⟨120, 180, 4, 4⟩ 120 4).2 = ritTempo 120 180 4 3 :=
    ritIter_write 120 180 4 120 3 (by omega)
  have h2 : ritTempo 120 180 4 3 = 165 := by
    unfold ritTempo tempoQ
    norm_num
    rfl
  have h3 : (ritIter ⟨120, 61, 2, 2⟩ 120 2).2 = ritTempo 120 61 2 1 :=
    ritIter_write 120 61 2 120 1 (by omega)
  have h4 : ritTempo 120 61 2 1 = 90 := by
    unfold ritTempo tempoQ
    norm_num
    rfl
  have h5 : (ritIter ⟨120, 180, 4, 4⟩ 120 4).1.remaining = 0 := by
    rw [ritIter_state 120 180 4 120 4 (le_refl 4)]
  refine ⟨h1.trans h2, h5, ?_, h3.trans h4, ?_⟩
  · rw [h1, h2]
    omega
  · rw [h3, h4]
    omega

/-- C2 (amended): the statements about the written tempo are quantified
over the domain on which the rational model of the `f32` pipeline is
bit-faithful to the program (see `ritardandoTick`): `ramp_length_beats = d`
a power of two, positive endpoint tempos, and
`max start_bpm target_bpm * d ≤ 2 ^ 24` — within the control surface's
ranges (start 60-300, target 30-250, length 1-256) only the power-of-two
restriction binds.  On that domain, across one full ramp from a fresh
`Start`, the `(k+1)`-th tick (`k < d`) writes
`ritTempo = max (trunc (start_bpm - (start_bpm - target_bpm) * k / d)) 1`
(truncation, not rounding, of the interpolant; progress on the tick entered
with `remaining = d - k` is `k/d`); this write sequence is non-decreasing in
`k` when `start_bpm ≤ target_bpm` and non-increasing when
`target_bpm ≤ start_bpm`, and it stays between `min start_bpm target_bpm`
and `max start_bpm target_bpm`; `remaining` reaches 0 after the `d`-th tick
(an exact integer fact, stated for every input), and that tick's write is
the interpolant at progress `(d-1)/d`, in general not `target_bpm`. -/
theorem C2_amended :
    (∀ st tg d b k j : Nat, d = 2 ^ j → 1 ≤ st → 1 ≤ tg →
        max st tg * d ≤ 2 ^ 24 → k < d →
        (ritIter ⟨st, tg, d, d⟩ b (k + 1)).2 = ritTempo st tg d k) ∧
    (∀ st tg d k1 k2 j : Nat, d = 2 ^ j → 1 ≤ st → 1 ≤ tg →
        max st tg * d ≤ 2 ^ 24 → k1 ≤ k2 → k2 < d →
        (tg ≤ st → ritTempo st tg d k2 ≤ ritTempo st tg d k1) ∧
        (st ≤ tg → ritTempo st tg d k1 ≤ ritTempo st tg d k2)) ∧
    (∀ st tg d b : Nat, (ritIter ⟨st, tg, d, d⟩ b d).1.remaining = 0) ∧
    (∀ st tg d k j : Nat, d = 2 ^ j → 1 ≤ st → 1 ≤ tg →
        max st tg * d ≤ 2 ^ 24 → k < d →
        min st tg ≤ ritTempo st tg d k ∧ ritTempo st tg d k ≤ max st tg) := by
  refine ⟨fun st tg d b k j _ _ _ _ hk => ritIter_write st tg d b k hk,
    ?_, ?_, ?_⟩
  · intro st tg d k1 k2 j hdj _ _ _ hk hk2
    have hd : 0 < d := by
      rw [hdj]
      exact pow_pos (by omega) j
    constructor
    · intro h
      exact ritTempo_of_tempoQ_le st tg d k2 k1
        (tempoQ_anti_of_le st tg d k1 k2 hd hk (by exact_mod_cast h))
    · intro h
      exact ritTempo_of_tempoQ_le st tg d k1 k2
        (tempoQ_mono_of_le st tg d k1 k2 hd hk (by exact_mod_cast h))
  · intro st tg d b
    rw [ritIter_state st tg d b d (le_refl d)]
    simp
  · intro st tg d k j _ hst htg _ hk
    have hd : 0 < d := by omega
    have hdQ : (0 : ℚ) < (d : ℚ) := by exact_mod_cast hd
    have hp0 : (0 : ℚ) ≤ (k : ℚ) / (d : ℚ) :=
      div_nonneg (by positivity) (by positivity)
    have hp1 : (k : ℚ) / (d : ℚ) ≤ 1 := by
      rw [div_le_one hdQ]
      exact_mod_cast hk.le
    have hlow : ((min st tg : Nat) : ℚ) ≤ tempoQ st tg d k := by
      unfold tempoQ
      rcases le_total st tg with h | h
      · rw [min_eq_left h]
        have hC : (st : ℚ) ≤ (tg : ℚ) := by exact_mod_cast h
        nlinarith [mul_nonneg (sub_nonneg.mpr hC) hp0]
      · rw [min_eq_right h]
        have hC : (tg : ℚ) ≤ (st : ℚ) := by exact_mod_cast h
        nlinarith [mul_nonneg (sub_nonneg.mpr hC) (sub_nonneg.mpr hp1)]
    have hup : tempoQ st tg d k ≤ ((max st tg : Nat) : ℚ) := by
      unfold tempoQ
      rcases le_total st tg with h | h
      · rw [max_eq_right h]
        have hC : (st : ℚ) ≤ (tg : ℚ) := by exact_mod_cast h
        nlinarith [mul_nonneg (sub_nonneg.mpr hC) (sub_nonneg.mpr hp1)]
      · rw [max_eq_left h]
        have hC : (tg : ℚ) ≤ (st : ℚ) := by exact_mod_cast h
        nlinarith [mul_nonneg (sub_nonneg.mpr hC) hp0]
    constructor
    · have h1 : ((min st tg : Nat) : ℤ) ≤ ⌊tempoQ st tg d k⌋ := by
        rw [Int.le_floor]
        exact_mod_cast hlow
      have h2 := Int.toNat_le_toNat h1
      rw [Int.toNat_natCast] at h2
      exact le_trans h2 (le_max_left _ _)
    · have h1 : ⌊tempoQ st tg d k⌋ ≤ ((max st tg : Nat) : ℤ) := by
        have hf := Int.floor_le_floor hup
        rwa [Int.floor_natCast] at hf
      have h2 := Int.toNat_le_toNat h1
      rw [Int.toNat_natCast] at h2
      unfold ritTempo
      exact max_le h2 (by omega)

/-- C2 witness: the amended write law at `start = 100`, `target = 50`,
`d = 2 = 2 ^ 1`, second tick (all hypotheses of the bit-faithful domain
discharged: `max 100 50 * 2 = 200 ≤ 2 ^ 24`), and the bounds at the same
ramp position. -/
theorem C2_witness :
    (ritIter ⟨100, 50, 2, 2⟩ 100 2).2 = ritTempo 100 50 2 1 ∧
    (min 100 50 ≤ ritTempo 100 50 2 1 ∧ ritTempo 100 50 2 1 ≤ max 100 50) :=
  ⟨C2_amended.1 100 50 2 100 1 1 rfl (by omega) (by omega) (by decide)
      (by omega),
    C2_amended.2.2.2 100 50 2 1 1 rfl (by omega) (by omega) (by decide)
      (by omega)⟩

/-! ## C9: Stop -/

/-- C9 counterexample: the claim that the subdivision tick index is left
unchanged by `Stop` fails: in the very iteration that processes `Stop`, the
scheduler's not-running branch zeroes `subdivision_tick` (main.rs lines
662-665), here from 5 to 0. -/
theorem C9_counterexample :
    c9State.subdivision_tick = 5 ∧
    (schedStep 100 ⟨0, 0, 0⟩ [MetronomeCommand.Stop] c9State).1.subdivision_tick
      = 0 ∧
    (schedStep 100 ⟨0, 0, 0⟩ [MetronomeCommand.Stop] c9State).1.subdivision_tick
      ≠ c9State.subdivision_tick := by
  refine ⟨rfl, rfl, by decide⟩

/-- C9 (amended): a scheduler iteration whose only pending command is `Stop`
sets `running` to false and leaves `beat_count` (`tick_count`) and every
per-mode progress counter untouched — but the same iteration's idle branch
zeroes the subdivision tick index and refreshes the interval timer
(`last_tick := now`), so the subdivision position does not survive a stop.
It emits no events and plays no sound.  Stop is idempotent: a second
`Stop` iteration leaves the state identical except for the idle-branch
timer refresh (`last_tick` set to the second iteration's instant). -/
theorem C9_amended (s : SchedState) (now now2 : ℚ) (rng rng2 : RngDraws) :
    (schedStep now rng [MetronomeCommand.Stop] s).1 =
      { s with is_running := false, last_tick := now, subdivision_tick := 0 } ∧
    (schedStep now rng [MetronomeCommand.Stop] s).2.1 = [] ∧
    (schedStep now rng [MetronomeCommand.Stop] s).2.2 = [] ∧
    (schedStep now2 rng2 [MetronomeCommand.Stop]
        ((schedStep now rng [MetronomeCommand.Stop] s).1)).1 =
      { s with is_running := false, last_tick := now2, subdivision_tick := 0 } :=
  ⟨rfl, rfl, rfl, rfl⟩

/-! ## C10: Start -/

/-- C10: the `Start` handler is unconditional — it applies in any state,
running or stopped — and it sets `running`, zeroes `beat_count`
(`tick_count`) and the subdivision tick index, restarts the interval and
countdown timers (`last_tick` and `countdown_start_time` set to now), and
re-initializes exactly the active mode's progress counters to their
fresh-start values: Random `remaining_ticks := count`; Practice section
index 0 and `section_remaining` 0; Ritardando `remaining := duration` with
the shared tempo set to `start_bpm`; Countdown `remaining_seconds :=
duration_seconds`, baseline tempo captured in `original_bpm`, and
`next_bpm_change := 5`.  All other fields are unchanged and no event is
emitted. -/
theorem C10_start (s : SchedState) (now : ℚ) :
    (applyCommand now s MetronomeCommand.Start).1.is_running = true ∧
    (applyCommand now s MetronomeCommand.Start).1.tick_count = 0 ∧
    (applyCommand now s MetronomeCommand.Start).1.subdivision_tick = 0 ∧
    (applyCommand now s MetronomeCommand.Start).1.last_tick = now ∧
    (applyCommand now s MetronomeCommand.Start).1.countdown_start = now ∧
    (applyCommand now s MetronomeCommand.Start).1.volume = s.volume ∧
    (applyCommand now s MetronomeCommand.Start).1.sound_type = s.sound_type ∧
    (applyCommand now s MetronomeCommand.Start).1.mode = s.mode ∧
    (applyCommand now s MetronomeCommand.Start).1.last_beat = s.last_beat ∧
    (applyCommand now s MetronomeCommand.Start).1.polyS = s.polyS ∧
    (applyCommand now s MetronomeCommand.Start).1.subS = s.subS ∧
    (applyCommand now s MetronomeCommand.Start).1.bpm =
      (if s.mode = MetronomeMode.Ritardando then s.ritS.start_bpm else s.bpm) ∧
    (applyCommand now s MetronomeCommand.Start).1.randomS =
      (if s.mode = MetronomeMode.Random then
        { s.randomS with remaining_ticks := s.randomS.count }
      else s.randomS) ∧
    (applyCommand now s MetronomeCommand.Start).1.practiceS =
      (if s.mode = MetronomeMode.Practice then
        { s.practiceS with current_section := 0, section_remaining := 0 }
      else s.practiceS) ∧
    (applyCommand now s MetronomeCommand.Start).1.ritS =
      (if s.mode = MetronomeMode.Ritardando then
        { s.ritS with remaining := s.ritS.duration }
      else s.ritS) ∧
    (applyCommand now s MetronomeCommand.Start).1.cdS =
      (if s.mode = MetronomeMode.Countdown then
        { s.cdS with
            remaining_seconds := (s.cdS.duration_seconds : ℚ)
            original_bpm := s.bpm
            next_bpm_change := 5 }
      else s.cdS) ∧
    (applyCommand now s MetronomeCommand.Start).2 = [] := by
  rcases s with ⟨b, run, v, st, tc, m, rs, ps, pos, rits, subs, cds, lb, lt, sdt, cst⟩
  cases m <;> simp [applyCommand]

/-! ## C4: Countdown completion -/

theorem countdown_finish_step (s : SchedState) (now : ℚ) (rng : RngDraws)
    (hm : s.mode = MetronomeMode.Countdown) (hr : s.is_running = true)
    (hfin : (s.cdS.duration_seconds : ℚ) ≤ (now - s.countdown_start) / 1000) :
    schedStep now rng [] s =
      ({ s with
          is_running := false
          cdS := { s.cdS with remaining_seconds := 0 } },
        [MetronomeEvent.CountdownFinished],
        [(8, ((s.volume : ℚ) / 100) * (3 / 2))]) := by
  have hrem :
      max ((s.cdS.duration_seconds : ℚ) - (now - s.countdown_start) / 1000) 0
        = 0 :=
    max_eq_right (by linarith)
  simp only [schedStep, applyCommands, runBody, countdownPhase, hm, hr,
    if_pos rfl, if_true, hrem, le_refl, List.nil_append]

theorem stopped_applyCommand (now : ℚ) (s : SchedState)
    (c : MetronomeCommand) (h : s.is_running = false)
    (hc : c ≠ MetronomeCommand.Start) :
    (applyCommand now s c).1.is_running = false ∧
    (∀ ev ∈ (applyCommand now s c).2,
      (∀ n b, ev ≠ MetronomeEvent.Beat n b) ∧
        ev ≠ MetronomeEvent.CountdownFinished) := by
  cases c <;> simp_all [applyCommand]

theorem stopped_applyCommands (now : ℚ) :
    ∀ (cmds : List MetronomeCommand) (s : SchedState),
      s.is_running = false → MetronomeCommand.Start ∉ cmds →
      (applyCommands now s cmds).1.is_running = false ∧
      (∀ ev ∈ (applyCommands now s cmds).2,
        (∀ n b, ev ≠ MetronomeEvent.Beat n b) ∧
          ev ≠ MetronomeEvent.CountdownFinished) := by
  intro cmds
  induction cmds with
  | nil =>
    intro s h _
    exact ⟨h, by simp [applyCommands]⟩
  | cons c rest ih =>
    intro s h hmem
    have hc : c ≠ MetronomeCommand.Start := by
      intro heq
      exact hmem (heq ▸ List.mem_cons_self c rest)
    have hrest : MetronomeCommand.Start ∉ rest := by
      intro hr
      exact hmem (List.mem_cons_of_mem c hr)
    obtain ⟨h1, h2⟩ := stopped_applyCommand now s c h hc
    obtain ⟨h3, h4⟩ := ih (applyCommand now s c).1 h1 hrest
    refine ⟨h3, ?_⟩
    intro ev hev
    simp only [applyCommands, List.mem_append] at hev
    rcases hev with hev | hev
    · exact h2 ev hev
    · exact h4 ev hev

theorem stopped_runBody (now : ℚ) (rng : RngDraws) (s : SchedState)
    (h : s.is_running = false) :
    runBody now rng s =
      ({ s with last_tick := now, subdivision_tick := 0 }, [], []) := by
  simp [runBody, h]

theorem stopped_runSched :
    ∀ (iters : List SchedIter) (s : SchedState),
      s.is_running = false →
      (∀ it ∈ iters, MetronomeCommand.Start ∉ it.cmds) →
      (runSched iters s).1.is_running = false ∧
      (∀ ev ∈ (runSched iters s).2,
        (∀ n b, ev ≠ MetronomeEvent.Beat n b) ∧
          ev ≠ MetronomeEvent.CountdownFinished) := by
  intro iters
  induction iters with
  | nil =>
    intro s h _
    exact ⟨h, by simp [runSched]⟩
  | cons it rest ih =>
    intro s h hmem
    have hit : MetronomeCommand.Start ∉ it.cmds :=
      hmem it (List.mem_cons_self it rest)
    have hrest : ∀ i ∈ rest, MetronomeCommand.Start ∉ i.cmds := by
      intro i hi
      exact hmem i (List.mem_cons_of_mem it hi)
    obtain ⟨h1, h2⟩ := stopped_applyCommands it.now it.cmds s h hit
    have hbody := stopped_runBody it.now it.rng
      (applyCommands it.now s it.cmds).1 h1
    have hstep1 : (schedStep it.now it.rng it.cmds s).1.is_running = false := by
      simp only [schedStep, hbody]
      exact h1
    have hstep2 : ∀ ev ∈ (schedStep it.now it.rng it.cmds s).2.1,
        (∀ n b, ev ≠ MetronomeEvent.Beat n b) ∧
          ev ≠ MetronomeEvent.CountdownFinished := by
      intro ev hev
      simp only [schedStep, hbody, List.append_nil] at hev
      exact h2 ev hev
    obtain ⟨h3, h4⟩ := ih (schedStep it.now it.rng it.cmds s).1 hstep1 hrest
    refine ⟨h3, ?_⟩
    intro ev hev
    simp only [runSched, List.mem_append] at hev
    rcases hev with hev | hev
    · exact hstep2 ev hev
    · exact h4 ev hev

/-- C4: for any running Countdown state whose elapsed wall-clock time has
reached `duration_seconds`, the scheduler iteration emits exactly one
`CountdownFinished` event (and nothing else), sets `running` to false, plays
exactly the celebration sound (cache id 8) at the boosted gain
`volume * 1.5` (unclamped), fires no `Beat`, and — for any continuation of
the run in which no `Start` command arrives — every later iteration emits no
`Beat` and no further `CountdownFinished`, and `running` stays false. -/
theorem C4_countdown (s : SchedState) (now : ℚ) (rng : RngDraws)
    (rest : List SchedIter)
    (hm : s.mode = MetronomeMode.Countdown) (hr : s.is_running = true)
    (hfin : (s.cdS.duration_seconds : ℚ) ≤ (now - s.countdown_start) / 1000)
    (hrest : ∀ it ∈ rest, MetronomeCommand.Start ∉ it.cmds) :
    (schedStep now rng [] s).2.1 = [MetronomeEvent.CountdownFinished] ∧
    (schedStep now rng [] s).1.is_running = false ∧
    (schedStep now rng [] s).2.2 = [(8, ((s.volume : ℚ) / 100) * (3 / 2))] ∧
    (∀ ev ∈ (runSched rest (schedStep now rng [] s).1).2,
      (∀ n b, ev ≠ MetronomeEvent.Beat n b) ∧
        ev ≠ MetronomeEvent.CountdownFinished) ∧
    (runSched rest (schedStep now rng [] s).1).1.is_running = false := by
  have hstep := countdown_finish_step s now rng hm hr hfin
  have hrun : (schedStep now rng [] s).1.is_running = false := by
    rw [hstep]
  obtain ⟨h3, h4⟩ :=
    stopped_runSched rest (schedStep now rng [] s).1 hrun hrest
  refine ⟨by rw [hstep], hrun, by rw [hstep], h4, h3⟩

/-- C4 witness: the countdown-completion law applied to the concrete
one-second session evaluated at 1.5 elapsed seconds, followed by one further
`Stop`-only iteration. -/
theorem C4_witness :
    (schedStep 1500 ⟨0, 0, 0⟩ [] c4State).2.1 =
      [MetronomeEvent.CountdownFinished] ∧
    (schedStep 1500 ⟨0, 0, 0⟩ [] c4State).1.is_running = false ∧
    (schedStep 1500 ⟨0, 0, 0⟩ [] c4State).2.2 =
      [(8, ((c4State.volume : ℚ) / 100) * (3 / 2))] ∧
    (runSched [⟨2000, ⟨0, 0, 0⟩, [MetronomeCommand.Stop]⟩]
        (schedStep 1500 ⟨0, 0, 0⟩ [] c4State).1).1.is_running = false := by
  have h := C4_countdown c4State 1500 ⟨0, 0, 0⟩
    [⟨2000, ⟨0, 0, 0⟩, [MetronomeCommand.Stop]⟩]
    rfl rfl (by norm_num [c4State, initState]) (by simp)
  exact ⟨h.1, h.2.1, h.2.2.1, h.2.2.2.2⟩

/-- C5 witness: the rollover law applied to the fresh two-section state
(first tick applies tempo 60, leaves counter 3, advances the index), and the
empty-section no-op at a fresh state. -/
theorem C5_witness :
    practiceTick ⟨[(60, 4), (120, 4)], 0, 0⟩ 120 =
      (⟨[(60, 4), (120, 4)], 1, 3⟩, 60, [MetronomeEvent.BpmChanged 60]) ∧
    (practiceTick ⟨[], 7, 0⟩ 99).1 = ⟨[], 7, 0⟩ ∧
    (practiceTick ⟨[], 7, 0⟩ 99).2.1 = 99 := by
  have h1 := C5_amended.2.1 ⟨[(60, 4), (120, 4)], 0, 0⟩ 120 rfl (by decide)
  have h2 := C5_amended.2.2.2 ⟨[], 7, 0⟩ 99 rfl rfl
  exact ⟨h1, h2.1, h2.2.1⟩
